import Mathlib

/-!
Shallow embedding of `.devcontainer/gogo_claude.py`, a command-line driver
that repeatedly invokes an external assistant process with prompt files.

Conventions of the embedding:
* Python `int`/`str` become `Int`/`String`; file-system facts are supplied by
  oracles (`fsExists : String → Bool`, file contents as explicit arguments).
* The random draw of `random.randint(1, total)` is an explicit argument `r`.
* Per-iteration external effects (child spawn outcome, exit code, presence of
  the sentinel `error.txt`) are an `IterEnv` oracle indexed by iteration.
* The logs directory is modelled by the set (as a `List Nat`) of numbers `n`
  for which `claude_workstream<n padded to 2 digits>.jsonl` exists, plus the
  current target of the `claude_workstream_latest.jsonl` symlink.
-/

/-- Characters treated as whitespace by Python `str.strip()` / `str.split()`
(ASCII fragment; unicode whitespace is out of scope). -/
def isPyWs (c : Char) : Bool :=
  c == ' ' || c == '\t' || c == '\n' || c == '\r' || c == '\x0b' || c == '\x0c'

/-- Python `str.strip()`: drop leading and trailing whitespace. -/
def pyStrip (s : String) : String :=
  String.mk (((s.data.dropWhile isPyWs).reverse.dropWhile isPyWs).reverse)

/-- Python `line.split(None, 1)` on an already-stripped string: first
whitespace-free token, then the remainder after the separating run of
whitespace (absent when the string holds a single token). -/
def pySplit1 (s : String) : List String :=
  let cs := s.data
  let tok := cs.takeWhile (fun c => !isPyWs c)
  let rest := (cs.dropWhile (fun c => !isPyWs c)).dropWhile isPyWs
  if rest.isEmpty then [String.mk tok] else [String.mk tok, String.mk rest]

/-- Digit tail of a Python integer literal: digits with single underscores
allowed between digits (as accepted by Python `int`). -/
def pyIntDigits : List Char → Nat → Option Nat
  | [], acc => some acc
  | '_' :: c :: rest, acc =>
      if c.isDigit then pyIntDigits rest (acc * 10 + (c.toNat - 48)) else none
  | c :: rest, acc =>
      if c.isDigit then pyIntDigits rest (acc * 10 + (c.toNat - 48)) else none

/-- A non-empty all-digit (with inner underscores) string, as a `Nat`. -/
def pyIntFromDigits : List Char → Option Nat
  | [] => none
  | c :: rest => if c.isDigit then pyIntDigits rest (c.toNat - 48) else none

/-- Python `int(s)` after stripping: optional sign, then digits. -/
def pyIntCore : List Char → Option Int
  | '+' :: rest => (pyIntFromDigits rest).map Int.ofNat
  | '-' :: rest => (pyIntFromDigits rest).map (fun n => -(Int.ofNat n))
  | cs => (pyIntFromDigits cs).map Int.ofNat

/-- Python `int(s)` on a string (`ValueError` becomes `none`). -/
def pyInt (s : String) : Option Int := pyIntCore (pyStrip s).data

/-- `PurePosixPath.is_absolute`: path starts with a slash. -/
def is_absolute (s : String) : Bool := s.data.head? == some '/'

/-- `Path(p).parent`: the path with its final component removed (`"."` when
there is no directory part). -/
def path_parent (p : String) : String :=
  let cs := p.data
  if cs.contains '/' then
    let parent := ((cs.reverse.dropWhile (fun c => !(c == '/'))).drop 1).reverse
    if parent.isEmpty then "/" else String.mk parent
  else "."

/-- `table_dir / prompt_path` when the path is not absolute
(`gogo_claude.py` lines 60-62). -/
def resolve_path (table_dir : String) (p : String) : String :=
  if is_absolute p then p else table_dir ++ "/" ++ p

/-- `BUILTIN_PROMPTS` (lines 17-21) resolved against the prompts directory
as in `main` (lines 303-306). -/
def builtin_defaults (prompt_dir : String) : List (Int × String) :=
  [(50, prompt_dir ++ "/generic_forward_progress_task.md"),
   (30, prompt_dir ++ "/optimization_task.md"),
   (20, prompt_dir ++ "/task_gardening.md")]

/-! ## Prompt table loading (`load_prompt_table`, lines 24-73) -/

/-- Classification of one raw line of a prompt-table file, following the
control flow of `load_prompt_table` lines 39-68. -/
inductive LineCheck where
  | skippedSilently
  | warnedMalformed
  | warnedInvalidWeight
  | warnedNonPositive
  | warnedNotFound (p : String)
  | valid (w : Int) (p : String)
deriving DecidableEq

/-- Process one raw line exactly as the loop body of `load_prompt_table`:
strip; skip blanks and `#` comments silently; split on the first whitespace
run; parse the weight with `int(...)`; require it positive; resolve the path
against the table directory and require it to exist. -/
def check_table_line (fsExists : String → Bool) (table_dir : String) (raw : String) : LineCheck :=
  let line := pyStrip raw
  if line = "" then .skippedSilently
  else if line.data.head? = some '#' then .skippedSilently
  else
    match pySplit1 line with
    | [w, rest] =>
      match pyInt w with
      | none => .warnedInvalidWeight
      | some weight =>
        if weight ≤ 0 then .warnedNonPositive
        else
          let p := resolve_path table_dir rest
          if fsExists p then .valid weight p else .warnedNotFound p
    | _ => .warnedMalformed

/-- The (weight, path) entry a line contributes to the table, if any. -/
def table_line_entry (fsExists : String → Bool) (table_dir : String) (raw : String) :
    Option (Int × String) :=
  match check_table_line fsExists table_dir raw with
  | .valid w p => some (w, p)
  | _ => none

/-- Whether a line's classification carries a warning on the diagnostic
stream (stderr `print` calls at lines 47, 53, 56, 65). -/
def line_warned : LineCheck → Bool
  | .warnedMalformed => true
  | .warnedInvalidWeight => true
  | .warnedNonPositive => true
  | .warnedNotFound _ => true
  | _ => false

/-- Warnings emitted while scanning the lines, paired with their 1-based
line numbers (mirroring `enumerate(f, 1)`). -/
def table_warnings_from (fsExists : String → Bool) (table_dir : String) :
    Nat → List String → List (Nat × LineCheck)
  | _, [] => []
  | n, l :: ls =>
    let c := check_table_line fsExists table_dir l
    if line_warned c then (n, c) :: table_warnings_from fsExists table_dir (n + 1) ls
    else table_warnings_from fsExists table_dir (n + 1) ls

/-- All warnings for a table file, numbered from line 1. -/
def table_warnings (fsExists : String → Bool) (table_dir : String) (lines : List String) :
    List (Nat × LineCheck) :=
  table_warnings_from fsExists table_dir 1 lines

/-- `load_prompt_table` (lines 24-73): the valid entries in file order;
raises (`.error`) when no valid entry remains. -/
def load_prompt_table (fsExists : String → Bool) (table_dir : String) (lines : List String) :
    Except String (List (Int × String)) :=
  let prompts := lines.filterMap (table_line_entry fsExists table_dir)
  if prompts = [] then .error "No valid prompts found" else .ok prompts

/-! ## Weighted selection (`select_weighted_prompt`, lines 76-88) -/

/-- The cumulative scan of the `for` loop at lines 81-85: accumulate weights
and return the first path whose running total is `≥ r` (`none` when the loop
falls through). -/
def cumulative_select (r : Int) : Int → List (Int × String) → Option String
  | _, [] => none
  | c, e :: tl => if r ≤ c + e.1 then some e.2 else cumulative_select r (c + e.1) tl

/-- `select_weighted_prompt` for a given draw `r` (the code draws
`r = random.randint(1, total_weight)`); the fallback at line 88 returns the
first entry's path. -/
def select_weighted_prompt (prompts : List (Int × String)) (r : Int) : String :=
  match cumulative_select r 0 prompts with
  | some p => p
  | none => (prompts.getD 0 (0, "")).2

/-- Index-level version of the cumulative scan (proof helper): the position
of the entry `cumulative_select` returns. -/
def selIdx (r : Int) : Int → List (Int × String) → Option Nat
  | _, [] => none
  | c, e :: tl => if r ≤ c + e.1 then some 0 else (selIdx r (c + e.1) tl).map (· + 1)

/-- Sum of the first `j` weights (the running total before entry `j`). -/
def pfx : List (Int × String) → Nat → Int
  | _, 0 => 0
  | [], _ + 1 => 0
  | e :: tl, j + 1 => e.1 + pfx tl j

/-! ## Log numbering (`find_next_log_number`, lines 91-96) -/

/-- The log file name for number `n`: `claude_workstream%02d.jsonl`
(zero-padded to width 2, as Python `f"...{num:02d}..."`). -/
def log_file_name (n : Nat) : String :=
  "claude_workstream" ++ ((if n < 10 then "0" ++ toString n else toString n) ++ ".jsonl")

/-- The `while` loop of `find_next_log_number`, with explicit fuel: walk
upward from `num` until a number free in `files` is found. -/
def find_next_from (files : List Nat) : Nat → Nat → Nat
  | 0, num => num
  | fuel + 1, num => if num ∈ files then find_next_from files fuel (num + 1) else num

/-- `find_next_log_number`: the directory is abstracted to the list of
numbers whose log file exists; fuel `max + 1` always suffices since
`max + 1` is free. -/
def find_next_log_number (files : List Nat) : Nat :=
  find_next_from files (files.foldr max 0 + 1) 1

/-! ## One iteration (`run_iteration`, lines 121-235) -/

/-- `get_session_title` (lines 99-104): the stripped content of
`.session_title.txt` when present, else the empty string. -/
def get_session_title (present : Bool) (content : String) : String :=
  if present then pyStrip content else ""

/-- The command list built at lines 146-184: `happy` with `--name` when the
capability probe succeeds, `happy` with a title-setting instruction prepended
to the prompt otherwise, or plain `claude`. -/
def build_cmd (use_happy : Bool) (happyHasName : Bool) (title : String)
    (prompt_content : String) : List String :=
  if use_happy then
    if happyHasName then
      ["happy", "--name", title,
       "claude", "--dangerously-skip-permissions", "--verbose",
       "--output-format", "stream-json", "-c", "-p", prompt_content]
    else
      ["happy",
       "claude", "--dangerously-skip-permissions", "--verbose",
       "--output-format", "stream-json", "-c", "-p",
       "Tell happy to change the title to " ++ title ++ "\n\n" ++ prompt_content]
  else
    ["claude", "--dangerously-skip-permissions", "--verbose",
     "--output-format", "stream-json", "-c", "-p", prompt_content]

/-- The logs directory: which log numbers are taken, and the current target
name of the `claude_workstream_latest.jsonl` symlink (`none` if absent). -/
structure LogsState where
  files : List Nat
  latest : Option String
deriving DecidableEq

/-- External-world outcome of one iteration: the spawn/stream attempt
(`.error` = exception caught at line 223, `.ok code` = child exit code), the
child's stderr, and the sentinel `error.txt` state after the run. -/
structure IterEnv where
  spawn : Except String Int
  childStderr : String
  errorFileExists : Bool
  errorFileContent : String

/-- Result of `run_iteration`: the returned boolean, the logs directory
afterwards, the user-facing diagnostic lines, and the command invoked. -/
structure RunResult where
  ok : Bool
  logs : LogsState
  output : List String
  cmd : List String

/-- `run_iteration` (lines 121-235): allocate the next log number, replace
the latest symlink with a link to the new file's bare name, build the
command, then classify the outcome: spawn exception → failure; non-zero exit
→ failure; `error.txt` present → its content is printed and the iteration
fails; otherwise success. (The log file itself is created by
`open(log_file, 'a')` before the child runs.) -/
def run_iteration (use_happy happyHasName titlePresent : Bool)
    (titleContent prompt_content : String) (st : LogsState) (e : IterEnv) : RunResult :=
  let n := find_next_log_number st.files
  let name := log_file_name n
  let st' : LogsState := ⟨n :: st.files, some name⟩
  let cmd := build_cmd use_happy happyHasName (get_session_title titlePresent titleContent)
      prompt_content
  match e.spawn with
  | .error msg => ⟨false, st', ["Error during iteration: " ++ msg], cmd⟩
  | .ok code =>
    if code ≠ 0 then ⟨false, st', ["Error running claude: " ++ e.childStderr], cmd⟩
    else if e.errorFileExists then
      ⟨false, st', ["Error detected in error.txt:", e.errorFileContent], cmd⟩
    else ⟨true, st', ["Completed iteration"], cmd⟩

/-- Whether an iteration succeeds, as decided by `run_iteration`'s returns:
true exactly when the spawn succeeds, the child exits 0 and `error.txt` is
absent. -/
def iter_ok (e : IterEnv) : Bool :=
  match e.spawn with
  | .error _ => false
  | .ok code => if code ≠ 0 then false else !e.errorFileExists

/-! ## The driver (`main`, lines 238-387) -/

/-- Parsed command-line arguments (argparse namespace, lines 268-284). -/
structure Args where
  iterations : Int
  prompts : List String
  happy : Bool
  optimize : Bool
  general : Bool
  tasks : Bool
  only : Option String
  prompt_table : Option String

/-- Python truthiness of an optional string flag (`None` and `""` are
falsy). -/
def optTruthy : Option String → Bool
  | none => false
  | some s => s ≠ ""

/-- The configuration errors `main` reports through `parser.error`
(lines 289-292, 313, 324, 330). -/
inductive ConfigError where
  | onlyWithPrompts
  | tableWithPrompts
  | tableNotFound (p : String)
  | tableLoadFailed (msg : String)
  | onlyNotFound (p : String)
deriving DecidableEq

/-- The prompt-source configuration `main` resolves before the loop
(lines 302-349): the weighted list used for random selection, the fixed
prompt (if any), and whether `--only` mode is active. -/
structure Config where
  builtin_prompts : List (Int × String)
  fixed_prompt : Option String
  use_only_mode : Bool
deriving DecidableEq

/-- The immutable parts of the outside world the driver consults. -/
structure Env where
  fsExists : String → Bool
  tableLines : List String
  draws : Nat → Int
  iterEnv : Nat → IterEnv
  happyHasName : Bool
  titlePresent : Bool
  titleContent : String
  promptContent : String → String
  logs0 : LogsState

/-- The configuration phase of `main` (lines 286-349): the two
flag-conflict checks, then the `prompt_table` / `only` / `optimize` /
`general` / `tasks` / default chain, in source order. -/
def main_config (script_dir : String) (args : Args) (env : Env) : Except ConfigError Config :=
  if optTruthy args.only ∧ args.prompts ≠ [] then .error .onlyWithPrompts
  else if optTruthy args.prompt_table ∧ args.prompts ≠ [] then .error .tableWithPrompts
  else
    let prompt_dir := script_dir ++ "/prompts"
    if optTruthy args.prompt_table then
      let tp := args.prompt_table.getD ""
      if env.fsExists tp = false then .error (.tableNotFound tp)
      else
        match load_prompt_table env.fsExists (path_parent tp) env.tableLines with
        | .error msg => .error (.tableLoadFailed msg)
        | .ok entries => .ok ⟨entries, none, false⟩
    else if optTruthy args.only then
      let op := args.only.getD ""
      if env.fsExists op = false then .error (.onlyNotFound op)
      else .ok ⟨builtin_defaults prompt_dir, some op, true⟩
    else if args.optimize then
      .ok ⟨builtin_defaults prompt_dir, some (prompt_dir ++ "/optimization_task.md"), false⟩
    else if args.general then
      .ok ⟨builtin_defaults prompt_dir, some (prompt_dir ++ "/generic_forward_progress_task.md"), false⟩
    else if args.tasks then
      .ok ⟨builtin_defaults prompt_dir, some (prompt_dir ++ "/task_gardening.md"), false⟩
    else .ok ⟨builtin_defaults prompt_dir, none, false⟩

/-- Observable events of a driver run. -/
inductive Event where
  | promptSelected (i : Nat) (path : String)
  | runStarted (i : Nat) (path : String)
  | overallSuccess
deriving DecidableEq

/-- The per-iteration prompt choice of the loop body (lines 363-379):
`--only` file, else the i-th positional custom prompt, else the fixed
prompt, else a weighted draw. -/
def select_prompt (cfg : Config) (custom : List String) (draws : Nat → Int) (i : Nat) : String :=
  if cfg.use_only_mode then cfg.fixed_prompt.getD ""
  else if i ≤ custom.length then custom.getD (i - 1) ""
  else
    match cfg.fixed_prompt with
    | some f => f
    | none => select_weighted_prompt cfg.builtin_prompts (draws i)

/-- One pass of the loop body: select the prompt (lines 363-379) and run
the iteration (line 382). -/
def run_step (args : Args) (env : Env) (cfg : Config) (i : Nat) (st : LogsState) : RunResult :=
  run_iteration args.happy env.happyHasName env.titlePresent env.titleContent
    (env.promptContent (select_prompt cfg args.prompts env.draws i)) st (env.iterEnv i)

/-- The iteration loop (lines 362-384): run `m` more iterations starting at
index `i`; stop at the first failure. Returns the events and whether every
iteration succeeded. -/
def driver_loop (args : Args) (env : Env) (cfg : Config) :
    Nat → Nat → LogsState → List Event × Bool
  | 0, _, _ => ([], true)
  | m + 1, i, st =>
    if (run_step args env cfg i st).ok then
      (Event.promptSelected i (select_prompt cfg args.prompts env.draws i)
         :: Event.runStarted i (select_prompt cfg args.prompts env.draws i)
         :: (driver_loop args env cfg m (i + 1) (run_step args env cfg i st).logs).1,
       (driver_loop args env cfg m (i + 1) (run_step args env cfg i st).logs).2)
    else
      ([Event.promptSelected i (select_prompt cfg args.prompts env.draws i),
        Event.runStarted i (select_prompt cfg args.prompts env.draws i)], false)

/-- What a whole driver invocation produces: the process exit status, the
event trace, and the configuration error, if any. -/
structure DriverResult where
  exitCode : Int
  trace : List Event
  configError : Option ConfigError
deriving DecidableEq

/-- `main` (lines 238-387): configuration errors go through
`parser.error`, which prints the message and exits with status 2 before any
iteration; otherwise the loop runs over `range(1, iterations + 1)`,
`sys.exit(1)` on the first failure, success message and `sys.exit(0)` when
every iteration succeeds. -/
def main_run (script_dir : String) (args : Args) (env : Env) : DriverResult :=
  match main_config script_dir args env with
  | .error e => ⟨2, [], some e⟩
  | .ok cfg =>
    let r := driver_loop args env cfg args.iterations.toNat 1 env.logs0
    if r.2 then ⟨0, r.1 ++ [Event.overallSuccess], none⟩ else ⟨1, r.1, none⟩

/-! ## Spec-side definitions (for the refinement-style claims) -/

/-- Number of active mode flags; argparse's mutually exclusive group
guarantees this is at most 1. -/
def mode_count (args : Args) : Nat :=
  (if args.optimize then 1 else 0) + (if args.general then 1 else 0) +
  (if args.tasks then 1 else 0) + (if args.only ≠ none then 1 else 0) +
  (if args.prompt_table ≠ none then 1 else 0)

/-- Modelled from the spec: the weighted list the selector draws from,
"the table-loaded or built-in weighted list". -/
def spec_weighted_list (script_dir : String) (args : Args) (env : Env) : List (Int × String) :=
  if optTruthy args.prompt_table then
    match load_prompt_table env.fsExists (path_parent (args.prompt_table.getD ""))
        env.tableLines with
    | .ok entries => entries
    | .error _ => []
  else builtin_defaults (script_dir ++ "/prompts")

/-- Modelled from the spec's SELECT_PROMPT clause: "if an only mode is
active, always use that one file; else if i is within the count of supplied
positional custom files, use the i-th one in order; else if a fixed
single-category mode is active, use that fixed file, else draw from the
weighted selector". -/
def spec_select_prompt (script_dir : String) (args : Args) (env : Env) (i : Nat) : String :=
  let prompt_dir := script_dir ++ "/prompts"
  if optTruthy args.only then args.only.getD ""
  else if i ≤ args.prompts.length then args.prompts.getD (i - 1) ""
  else if args.optimize then prompt_dir ++ "/optimization_task.md"
  else if args.general then prompt_dir ++ "/generic_forward_progress_task.md"
  else if args.tasks then prompt_dir ++ "/task_gardening.md"
  else select_weighted_prompt (spec_weighted_list script_dir args env) (env.draws i)

/-- The iteration index an event belongs to, when it has one. -/
def ev_index : Event → Option Nat
  | .promptSelected i _ => some i
  | .runStarted i _ => some i
  | .overallSuccess => none

/-- A concrete environment: empty file system, empty logs directory, every
child run exits 0 with no sentinel file (used to instantiate theorems). -/
def env0 : Env :=
  ⟨fun _ => false, [], fun _ => 1, fun _ => ⟨Except.ok 0, "", false, ""⟩,
   false, false, "", fun _ => "", ⟨[], none⟩⟩

/-- Like `env0` but iteration 1 (and every iteration) fails to spawn. -/
def env_fail : Env :=
  ⟨fun _ => false, [], fun _ => 1, fun _ => ⟨Except.error "No such file", "", false, ""⟩,
   false, false, "", fun _ => "", ⟨[], none⟩⟩

/-! # Lemmas and claim theorems -/

theorem foldr_max_mem (l : List Nat) (x : Nat) (hx : x ∈ l) : x ≤ l.foldr max 0 := by
  induction l with
  | nil => cases hx
  | cons a tl ih =>
    rcases List.mem_cons.mp hx with rfl | h
    · exact le_max_left _ _
    · exact le_trans (ih h) (le_max_right _ _)

theorem find_next_from_spec (files : List Nat) :
    ∀ (fuel num : Nat), (∃ k, k < fuel ∧ num + k ∉ files) →
      find_next_from files fuel num ∉ files ∧ num ≤ find_next_from files fuel num ∧
      ∀ m, num ≤ m → m < find_next_from files fuel num → m ∈ files := by
  intro fuel
  induction fuel with
  | zero =>
    rintro num ⟨k, hk, -⟩
    exact absurd hk (by omega)
  | succ fuel ih =>
    rintro num ⟨k, hk, hfree⟩
    by_cases hmem : num ∈ files
    · have hk0 : k ≠ 0 := by
        rintro rfl
        exact hfree (by simpa using hmem)
      obtain ⟨k', rfl⟩ : ∃ k', k = k' + 1 := ⟨k - 1, by omega⟩
      have h2 : ∃ k2, k2 < fuel ∧ (num + 1) + k2 ∉ files :=
        ⟨k', by omega, by rwa [show num + 1 + k' = num + (k' + 1) by omega]⟩
      have hrec := ih (num + 1) h2
      rw [find_next_from, if_pos hmem]
      refine ⟨hrec.1, by omega, ?_⟩
      intro m hm1 hm2
      rcases eq_or_lt_of_le hm1 with rfl | h
      · exact hmem
      · exact hrec.2.2 m (by omega) hm2
    · rw [find_next_from, if_neg hmem]
      exact ⟨hmem, le_refl _, fun m h1 h2 => absurd h2 (by omega)⟩

theorem find_next_log_number_spec (files : List Nat) :
    1 ≤ find_next_log_number files ∧ find_next_log_number files ∉ files ∧
    ∀ m, 1 ≤ m → m < find_next_log_number files → m ∈ files := by
  have hex : ∃ k, k < files.foldr max 0 + 1 ∧ 1 + k ∉ files := by
    refine ⟨files.foldr max 0, Nat.lt_succ_self _, fun hmem => ?_⟩
    have := foldr_max_mem files _ hmem
    omega
  have h := find_next_from_spec files (files.foldr max 0 + 1) 1 hex
  exact ⟨h.2.1, h.1, h.2.2⟩

/-- C5: `find_next_log_number` returns the smallest positive `n` whose log
file `claude_workstream<n zero-padded to 2 digits>.jsonl` does not yet exist
in the logs directory (the directory abstracted to the list of taken
numbers); in particular with 01 and 02 present it returns 3, and with 01 and
03 present but 02 absent it fills the gap with 2. -/
theorem C5_log_number_gap_filling :
    (find_next_log_number [1, 2] = 3 ∧ find_next_log_number [1, 3] = 2 ∧
     log_file_name 3 = "claude_workstream03.jsonl" ∧
     log_file_name 2 = "claude_workstream02.jsonl") ∧
    ∀ files : List Nat,
      1 ≤ find_next_log_number files ∧ find_next_log_number files ∉ files ∧
      ∀ m, 1 ≤ m → m < find_next_log_number files → m ∈ files :=
  ⟨by decide, fun files => find_next_log_number_spec files⟩

theorem C5_log_number_gap_filling_witness : (2 : Nat) ∈ [1, 2] :=
  (C5_log_number_gap_filling.2 [1, 2]).2.2 2 (by decide) (by decide)

/-- C7: when the child process exits 0, `run_iteration` then consults the
sentinel `error.txt`: if it exists the iteration is reported failed and its
content is among the printed output; if it does not exist the iteration is
reported successful. -/
theorem C7_sentinel_file_check (uh hn tp : Bool) (tc pc : String) (st : LogsState)
    (e : IterEnv) (h0 : e.spawn = Except.ok 0) :
    (e.errorFileExists = true →
      (run_iteration uh hn tp tc pc st e).ok = false ∧
      e.errorFileContent ∈ (run_iteration uh hn tp tc pc st e).output) ∧
    (e.errorFileExists = false → (run_iteration uh hn tp tc pc st e).ok = true) := by
  constructor <;> intro hef <;> simp [run_iteration, h0, hef]

theorem C7_sentinel_file_check_witness :
    (run_iteration false false false "" "" ⟨[], none⟩ ⟨Except.ok 0, "", true, "boom"⟩).ok = false ∧
    "boom" ∈ (run_iteration false false false "" "" ⟨[], none⟩ ⟨Except.ok 0, "", true, "boom"⟩).output :=
  (C7_sentinel_file_check false false false "" "" ⟨[], none⟩ ⟨Except.ok 0, "", true, "boom"⟩ rfl).1 rfl

theorem log_file_name_not_absolute (n : Nat) : is_absolute (log_file_name n) = false := by
  have h2 : "claude_workstream".data = 'c' :: "laude_workstream".data := by decide
  have h : (log_file_name n).data.head? = some 'c' := by
    show (("claude_workstream" : String) ++ _).data.head? = some 'c'
    rw [String.data_append, h2]
    rfl
  simp [is_absolute, h]

/-- C8: on every iteration, whatever the previous state of the
`claude_workstream_latest.jsonl` alias (existing link, other file, or
absent), after `run_iteration` it is a link whose target is the bare
(non-absolute) name of the newly chosen log file. -/
theorem C8_latest_alias_repointed (uh hn tp : Bool) (tc pc : String) (st : LogsState)
    (e : IterEnv) :
    (run_iteration uh hn tp tc pc st e).logs.latest
      = some (log_file_name (find_next_log_number st.files)) ∧
    is_absolute (log_file_name (find_next_log_number st.files)) = false := by
  refine ⟨?_, log_file_name_not_absolute _⟩
  cases hs : e.spawn with
  | error m => simp [run_iteration, hs]
  | ok code =>
    by_cases hc : code = 0
    · by_cases hef : e.errorFileExists <;> simp [run_iteration, hs, hc, hef]
    · simp [run_iteration, hs, hc]

/-- C9 counterexample: the session title is NOT the side-file's text
verbatim: `get_session_title` strips surrounding whitespace, so a file whose
content is `"My Title\n"` yields the title `"My Title"`. -/
theorem C9_title_not_verbatim_counterexample :
    get_session_title true "My Title\n" = "My Title" ∧
    get_session_title true "My Title\n" ≠ "My Title\n" := by decide

/-- C9 amended: in happy mode the session title used for each run is the
content of `.session_title.txt` with leading and trailing whitespace
stripped (Python `str.strip()`), and the empty string when the file is
absent; with `--name` support the stripped title is passed right after the
`--name` flag, otherwise it is spliced into the title-setting instruction
prepended to the prompt. -/
theorem C9_title_stripped (tp : Bool) (tc pc : String) (st : LogsState) (e : IterEnv) :
    get_session_title tp tc = (if tp then pyStrip tc else "") ∧
    ((run_iteration true true tp tc pc st e).cmd =
      ["happy", "--name", if tp then pyStrip tc else "",
       "claude", "--dangerously-skip-permissions", "--verbose",
       "--output-format", "stream-json", "-c", "-p", pc]) ∧
    ((run_iteration true false tp tc pc st e).cmd =
      ["happy",
       "claude", "--dangerously-skip-permissions", "--verbose",
       "--output-format", "stream-json", "-c", "-p",
       "Tell happy to change the title to " ++ (if tp then pyStrip tc else "")
         ++ "\n\n" ++ pc]) := by
  refine ⟨rfl, ?_, ?_⟩ <;>
    (cases hs : e.spawn with
     | error m => simp [run_iteration, hs, build_cmd, get_session_title]
     | ok code =>
       by_cases hc : code = 0
       · by_cases hef : e.errorFileExists <;>
           simp [run_iteration, hs, hc, hef, build_cmd, get_session_title]
       · simp [run_iteration, hs, hc, build_cmd, get_session_title])

theorem pfx_nonneg (ps : List (Int × String)) (h : ∀ e ∈ ps, 0 ≤ e.1) :
    ∀ j, 0 ≤ pfx ps j := by
  induction ps with
  | nil => intro j; cases j <;> simp [pfx]
  | cons e tl ih =>
    intro j
    cases j with
    | zero => simp [pfx]
    | succ j' =>
      have h1 : 0 ≤ e.1 := h e (List.mem_cons_self _ _)
      have h2 := ih (fun x hx => h x (List.mem_cons_of_mem _ hx)) j'
      show 0 ≤ e.1 + pfx tl j'
      omega

theorem pfx_mono (ps : List (Int × String)) (h : ∀ e ∈ ps, 0 ≤ e.1) :
    ∀ j k, j ≤ k → pfx ps j ≤ pfx ps k := by
  induction ps with
  | nil => intro j k _; cases j <;> cases k <;> simp [pfx]
  | cons e tl ih =>
    intro j k hjk
    cases j with
    | zero =>
      cases k with
      | zero => exact le_refl _
      | succ k' =>
        have h1 : 0 ≤ e.1 := h e (List.mem_cons_self _ _)
        have h2 := pfx_nonneg tl (fun x hx => h x (List.mem_cons_of_mem _ hx)) k'
        show (0 : Int) ≤ e.1 + pfx tl k'
        omega
    | succ j' =>
      cases k with
      | zero => exact absurd hjk (by omega)
      | succ k' =>
        have := ih (fun x hx => h x (List.mem_cons_of_mem _ hx)) j' k' (by omega)
        show e.1 + pfx tl j' ≤ e.1 + pfx tl k'
        omega

theorem pfx_succ_getD (ps : List (Int × String)) :
    ∀ j, j < ps.length → pfx ps (j + 1) = pfx ps j + (ps.getD j (0, "")).1 := by
  induction ps with
  | nil => intro j h; simp at h
  | cons e tl ih =>
    intro j hj
    cases j with
    | zero => show e.1 + pfx tl 0 = 0 + e.1; simp [pfx]
    | succ j' =>
      have hrec := ih j' (by simpa using hj)
      show e.1 + pfx tl (j' + 1) = (e.1 + pfx tl j') + (tl.getD j' (0, "")).1
      omega

theorem selIdx_eq_some_iff (ps : List (Int × String)) (hpos : ∀ e ∈ ps, 0 < e.1) :
    ∀ (c r : Int) (j : Nat), c < r →
      (selIdx r c ps = some j ↔
        j < ps.length ∧ c + pfx ps j < r ∧ r ≤ c + pfx ps (j + 1)) := by
  induction ps with
  | nil =>
    intro c r j hcr
    simp [selIdx]
  | cons e tl ih =>
    intro c r j hcr
    have he : 0 < e.1 := hpos e (List.mem_cons_self _ _)
    have htl : ∀ x ∈ tl, 0 < x.1 := fun x hx => hpos x (List.mem_cons_of_mem _ hx)
    have htl' : ∀ x ∈ tl, 0 ≤ x.1 := fun x hx => le_of_lt (htl x hx)
    by_cases hle : r ≤ c + e.1
    · rw [selIdx, if_pos hle]
      constructor
      · intro h
        have hj0 : j = 0 := by
          have := Option.some.inj h
          omega
        subst hj0
        refine ⟨by simp, ?_, ?_⟩
        · show c + 0 < r; omega
        · show r ≤ c + (e.1 + pfx tl 0); simp [pfx]; omega
      · rintro ⟨h1, h2, h3⟩
        cases j with
        | zero => rfl
        | succ j' =>
          exfalso
          have hnn := pfx_nonneg tl htl' j'
          have h2' : c + (e.1 + pfx tl j') < r := h2
          omega
    · rw [selIdx, if_neg hle]
      have hcr2 : c + e.1 < r := by omega
      cases j with
      | zero =>
        constructor
        · intro h
          exfalso
          cases hs : selIdx r (c + e.1) tl <;> rw [hs] at h <;> simp at h
        · rintro ⟨h1, h2, h3⟩
          exfalso
          have h3' : r ≤ c + (e.1 + pfx tl 0) := h3
          simp [pfx] at h3'
          omega
      | succ j' =>
        constructor
        · intro h
          have h' : selIdx r (c + e.1) tl = some j' := by
            cases hs : selIdx r (c + e.1) tl with
            | none => rw [hs] at h; simp at h
            | some v =>
              rw [hs] at h
              simp at h
              rw [h]
          have hr := (ih htl (c + e.1) r j' hcr2).mp h'
          refine ⟨by simpa using hr.1, ?_, ?_⟩
          · show c + (e.1 + pfx tl j') < r
            have := hr.2.1
            omega
          · show r ≤ c + (e.1 + pfx tl (j' + 1))
            have := hr.2.2
            omega
        · rintro ⟨h1, h2, h3⟩
          have h2' : (c + e.1) + pfx tl j' < r := by
            have : c + (e.1 + pfx tl j') < r := h2
            omega
          have h3' : r ≤ (c + e.1) + pfx tl (j' + 1) := by
            have : r ≤ c + (e.1 + pfx tl (j' + 1)) := h3
            omega
          have := (ih htl (c + e.1) r j' hcr2).mpr ⟨by simpa using h1, h2', h3'⟩
          rw [this]
          rfl

theorem cumulative_select_eq_selIdx (ps : List (Int × String)) :
    ∀ (c r : Int), cumulative_select r c ps
      = (selIdx r c ps).map (fun j => (ps.getD j (0, "")).2) := by
  induction ps with
  | nil => intro c r; rfl
  | cons e tl ih =>
    intro c r
    by_cases hle : r ≤ c + e.1
    · rw [cumulative_select, selIdx, if_pos hle, if_pos hle]
      rfl
    · rw [cumulative_select, selIdx, if_neg hle, if_neg hle, ih (c + e.1) r]
      cases hs : selIdx r (c + e.1) tl <;> simp [hs]

theorem selIdx_isSome (ps : List (Int × String)) (hpos : ∀ e ∈ ps, 0 < e.1) :
    ∀ (c r : Int), c < r → r ≤ c + pfx ps ps.length → (selIdx r c ps).isSome := by
  induction ps with
  | nil =>
    intro c r h1 h2
    exfalso
    have : pfx ([] : List (Int × String)) 0 = 0 := rfl
    simp [List.length_nil, this] at h2
    omega
  | cons e tl ih =>
    intro c r h1 h2
    have htl : ∀ x ∈ tl, 0 < x.1 := fun x hx => hpos x (List.mem_cons_of_mem _ hx)
    by_cases hle : r ≤ c + e.1
    · rw [selIdx, if_pos hle]
      rfl
    · have h2' : r ≤ (c + e.1) + pfx tl tl.length := by
        have : r ≤ c + (e.1 + pfx tl tl.length) := h2
        omega
      have := ih htl (c + e.1) r (by omega) h2'
      rw [selIdx, if_neg hle]
      simpa using this

theorem selIdx_filter_card (ps : List (Int × String)) (hpos : ∀ e ∈ ps, 0 < e.1)
    (j : Nat) (hj : j < ps.length) :
    ((Finset.Icc 1 (pfx ps ps.length)).filter (fun q => selIdx q 0 ps = some j)).card
      = (ps.getD j (0, "")).1.toNat := by
  have hnn : ∀ e ∈ ps, 0 ≤ e.1 := fun e he => le_of_lt (hpos e he)
  have hset : (Finset.Icc 1 (pfx ps ps.length)).filter (fun q => selIdx q 0 ps = some j)
      = Finset.Icc (pfx ps j + 1) (pfx ps (j + 1)) := by
    ext q
    simp only [Finset.mem_filter, Finset.mem_Icc]
    constructor
    · rintro ⟨⟨hq1, hq2⟩, hsel⟩
      have h := (selIdx_eq_some_iff ps hpos 0 q j (by omega)).mp hsel
      have h1 := h.2.1
      have h2 := h.2.2
      omega
    · rintro ⟨hq1, hq2⟩
      have hpj := pfx_nonneg ps hnn j
      have hmono := pfx_mono ps hnn (j + 1) ps.length (by omega)
      have h0q : (0 : Int) < q := by omega
      refine ⟨⟨by omega, by omega⟩, ?_⟩
      exact (selIdx_eq_some_iff ps hpos 0 q j h0q).mpr ⟨hj, by omega, by omega⟩
  rw [hset, Int.card_Icc, pfx_succ_getD ps j hj]
  congr 1
  ring

/-- C3: for every non-empty weighted list with positive weights and every
draw `r` in `[1, total]`, the cumulative scan of `select_weighted_prompt`
returns the first entry whose cumulative weight sum is `≥ r` (so the
defensive fallback is never executed), and each entry is selected for
exactly its weight's worth of the possible draws. -/
theorem C3_weighted_selection (ps : List (Int × String)) (r : Int)
    (_hne : ps ≠ []) (hpos : ∀ e ∈ ps, 0 < e.1)
    (hr1 : 1 ≤ r) (hr2 : r ≤ pfx ps ps.length) :
    cumulative_select r 0 ps ≠ none ∧
    (∃ j, j < ps.length ∧ selIdx r 0 ps = some j ∧
      pfx ps j < r ∧ r ≤ pfx ps (j + 1) ∧
      (∀ k, k < j → pfx ps (k + 1) < r) ∧
      select_weighted_prompt ps r = (ps.getD j (0, "")).2) ∧
    (∀ j, j < ps.length →
      ((Finset.Icc 1 (pfx ps ps.length)).filter (fun q => selIdx q 0 ps = some j)).card
        = (ps.getD j (0, "")).1.toNat) := by
  have hnn : ∀ e ∈ ps, 0 ≤ e.1 := fun e he => le_of_lt (hpos e he)
  have hsome := selIdx_isSome ps hpos 0 r (by omega) (by simpa using hr2)
  obtain ⟨j, hj⟩ := Option.isSome_iff_exists.mp hsome
  have hchar := (selIdx_eq_some_iff ps hpos 0 r j (by omega)).mp hj
  have hjlt := hchar.1
  have hlow : pfx ps j < r := by have := hchar.2.1; omega
  have hhigh : r ≤ pfx ps (j + 1) := by have := hchar.2.2; omega
  have hbridge := cumulative_select_eq_selIdx ps 0 r
  rw [hj] at hbridge
  refine ⟨by rw [hbridge]; simp, ⟨j, hjlt, hj, hlow, hhigh, ?_, ?_⟩, ?_⟩
  · intro k hk
    have := pfx_mono ps hnn (k + 1) j (by omega)
    omega
  · rw [select_weighted_prompt, hbridge]
    rfl
  · intro j2 hj2
    exact selIdx_filter_card ps hpos j2 hj2

theorem C3_weighted_selection_witness :
    cumulative_select 60 0 [(50, "a"), (30, "b"), (20, "c")] ≠ none ∧
    select_weighted_prompt [(50, "a"), (30, "b"), (20, "c")] 60 = "b" := by
  have h := C3_weighted_selection [(50, "a"), (30, "b"), (20, "c")] 60
    (by decide) (by decide) (by decide) (by decide)
  refine ⟨h.1, ?_⟩
  obtain ⟨j, hjlt, hj, -, -, -, hsel⟩ := h.2.1
  have hj1 : j = 1 := by
    have : selIdx 60 0 [(50, "a"), (30, "b"), (20, "c")] = some 1 := by decide
    rw [this] at hj
    exact (Option.some.inj hj).symm
  rw [hsel, hj1]
  rfl

theorem table_warnings_from_mem (fsExists : String → Bool) (table_dir : String) :
    ∀ (ls : List String) (n k : Nat), k < ls.length →
      line_warned (check_table_line fsExists table_dir (ls.getD k "")) = true →
      (n + k, check_table_line fsExists table_dir (ls.getD k ""))
        ∈ table_warnings_from fsExists table_dir n ls := by
  intro ls
  induction ls with
  | nil => intro n k h; simp at h
  | cons l tl ih =>
    intro n k hk hw
    cases k with
    | zero =>
      rw [table_warnings_from]
      simp only [List.getD_cons_zero] at hw ⊢
      rw [if_pos hw]
      simp
    | succ k' =>
      have hmem := ih (n + 1) k' (by simpa using hk) (by simpa using hw)
      rw [table_warnings_from]
      by_cases hw0 : line_warned (check_table_line fsExists table_dir l) = true
      · rw [if_pos hw0]
        refine List.mem_cons_of_mem _ ?_
        simpa [Nat.add_assoc, Nat.add_comm 1 k'] using hmem
      · rw [if_neg hw0]
        simpa [Nat.add_assoc, Nat.add_comm 1 k'] using hmem

/-- C4: a table line whose weight does not parse as an integer, or parses
non-positive, or whose resolved path does not exist, is classified as a
warned skip (it appears in the stderr warnings and contributes no entry);
the loaded table is exactly the valid entries, and a table with zero valid
entries makes `load_prompt_table` fail instead of returning an empty
table. -/
theorem C4_table_validation (fsExists : String → Bool) (table_dir : String) :
    (∀ raw w rest, pySplit1 (pyStrip raw) = [w, rest] →
      pyStrip raw ≠ "" → (pyStrip raw).data.head? ≠ some '#' →
      ((pyInt w = none →
          check_table_line fsExists table_dir raw = LineCheck.warnedInvalidWeight ∧
          table_line_entry fsExists table_dir raw = none) ∧
       (∀ z : Int, pyInt w = some z → z ≤ 0 →
          check_table_line fsExists table_dir raw = LineCheck.warnedNonPositive ∧
          table_line_entry fsExists table_dir raw = none) ∧
       (∀ z : Int, pyInt w = some z → 0 < z →
          fsExists (resolve_path table_dir rest) = false →
          check_table_line fsExists table_dir raw
            = LineCheck.warnedNotFound (resolve_path table_dir rest) ∧
          table_line_entry fsExists table_dir raw = none))) ∧
    (∀ lines t, load_prompt_table fsExists table_dir lines = Except.ok t →
       t = lines.filterMap (table_line_entry fsExists table_dir)) ∧
    (∀ lines, lines.filterMap (table_line_entry fsExists table_dir) = [] →
       load_prompt_table fsExists table_dir lines = Except.error "No valid prompts found") ∧
    (∀ lines k, k < lines.length →
       line_warned (check_table_line fsExists table_dir (lines.getD k "")) = true →
       (k + 1, check_table_line fsExists table_dir (lines.getD k ""))
         ∈ table_warnings fsExists table_dir lines) := by
  refine ⟨?_, ?_, ?_, ?_⟩
  · intro raw w rest hsplit hne hnh
    have hcheck : ∀ res : LineCheck,
        (match pyInt w with
          | none => LineCheck.warnedInvalidWeight
          | some weight =>
            if weight ≤ 0 then LineCheck.warnedNonPositive
            else
              if fsExists (resolve_path table_dir rest) then
                LineCheck.valid weight (resolve_path table_dir rest)
              else LineCheck.warnedNotFound (resolve_path table_dir rest)) = res →
        check_table_line fsExists table_dir raw = res := by
      intro res hres
      rw [check_table_line]
      simp only [if_neg hne, if_neg hnh, hsplit]
      exact hres
    refine ⟨?_, ?_, ?_⟩
    · intro hparse
      have hc := hcheck LineCheck.warnedInvalidWeight (by rw [hparse])
      exact ⟨hc, by rw [table_line_entry, hc]⟩
    · intro z hparse hz
      have hc := hcheck LineCheck.warnedNonPositive (by rw [hparse]; simp [hz])
      exact ⟨hc, by rw [table_line_entry, hc]⟩
    · intro z hparse hz hfs
      have hc := hcheck (LineCheck.warnedNotFound (resolve_path table_dir rest)) (by
        rw [hparse]
        simp only [if_neg (by omega : ¬ z ≤ 0), hfs]
        simp)
      exact ⟨hc, by rw [table_line_entry, hc]⟩
  · intro lines t hload
    rw [load_prompt_table] at hload
    by_cases hemp : lines.filterMap (table_line_entry fsExists table_dir) = []
    · rw [if_pos hemp] at hload
      cases hload
    · rw [if_neg hemp] at hload
      exact (Except.ok.inj hload).symm
  · intro lines hemp
    rw [load_prompt_table, if_pos hemp]
  · intro lines k hk hw
    have := table_warnings_from_mem fsExists table_dir lines 1 k hk hw
    rw [table_warnings]
    simpa [Nat.add_comm 1 k] using this

theorem C4_table_validation_witness :
    check_table_line (fun _ => true) "d" "x a.md" = LineCheck.warnedInvalidWeight ∧
    table_line_entry (fun _ => true) "d" "x a.md" = none :=
  ((C4_table_validation (fun _ => true) "d").1 "x a.md" "x" "a.md"
    (by decide) (by decide) (by decide)).1 (by decide)

theorem run_iteration_ok_eq (uh hn tp : Bool) (tc pc : String) (st : LogsState) (e : IterEnv) :
    (run_iteration uh hn tp tc pc st e).ok = iter_ok e := by
  cases hs : e.spawn with
  | error m => simp [run_iteration, iter_ok, hs]
  | ok code =>
    by_cases hc : code = 0
    · by_cases hef : e.errorFileExists <;> simp [run_iteration, iter_ok, hs, hc, hef]
    · simp [run_iteration, iter_ok, hs, hc]

theorem run_step_ok_eq (args : Args) (env : Env) (cfg : Config) (i : Nat) (st : LogsState) :
    (run_step args env cfg i st).ok = iter_ok (env.iterEnv i) := by
  rw [run_step, run_iteration_ok_eq]

theorem driver_loop_events (args : Args) (env : Env) (cfg : Config) :
    ∀ (m i0 : Nat) (st : LogsState) (ev : Event) (j : Nat),
      ev ∈ (driver_loop args env cfg m i0 st).1 → ev_index ev = some j →
      i0 ≤ j ∧ ∀ k, i0 ≤ k → k < j → iter_ok (env.iterEnv k) = true := by
  intro m
  induction m with
  | zero =>
    intro i0 st ev j h _
    simp [driver_loop] at h
  | succ m ih =>
    intro i0 st ev j hmem hidx
    by_cases hok : (run_step args env cfg i0 st).ok = true
    · rw [driver_loop, if_pos hok] at hmem
      rcases List.mem_cons.mp hmem with rfl | hmem2
      · rw [ev_index] at hidx
        have hj : i0 = j := Option.some.inj hidx
        subst hj
        exact ⟨le_refl _, fun k h1 h2 => absurd h2 (by omega)⟩
      · rcases List.mem_cons.mp hmem2 with rfl | hmem3
        · rw [ev_index] at hidx
          have hj : i0 = j := Option.some.inj hidx
          subst hj
          exact ⟨le_refl _, fun k h1 h2 => absurd h2 (by omega)⟩
        · have hrec := ih (i0 + 1) _ ev j hmem3 hidx
          refine ⟨by omega, fun k h1 h2 => ?_⟩
          rcases eq_or_lt_of_le h1 with heq | h
          · rw [← heq, ← run_step_ok_eq args env cfg i0 st]
            exact hok
          · exact hrec.2 k (by omega) h2
    · rw [driver_loop, if_neg hok] at hmem
      rcases List.mem_cons.mp hmem with rfl | hmem2
      · rw [ev_index] at hidx
        have hj : i0 = j := Option.some.inj hidx
        subst hj
        exact ⟨le_refl _, fun k h1 h2 => absurd h2 (by omega)⟩
      · rcases List.mem_cons.mp hmem2 with rfl | hmem3
        · rw [ev_index] at hidx
          have hj : i0 = j := Option.some.inj hidx
          subst hj
          exact ⟨le_refl _, fun k h1 h2 => absurd h2 (by omega)⟩
        · simp at hmem3

theorem driver_loop_all_ok (args : Args) (env : Env) (cfg : Config) :
    ∀ (m i0 : Nat) (st : LogsState),
      (∀ k, i0 ≤ k → k < i0 + m → iter_ok (env.iterEnv k) = true) →
      (driver_loop args env cfg m i0 st).2 = true := by
  intro m
  induction m with
  | zero => intro i0 st _; rfl
  | succ m ih =>
    intro i0 st h
    have hok : (run_step args env cfg i0 st).ok = true := by
      rw [run_step_ok_eq]
      exact h i0 (le_refl _) (by omega)
    rw [driver_loop, if_pos hok]
    exact ih (i0 + 1) _ (fun k h1 h2 => h k (by omega) (by omega))

theorem driver_loop_fails (args : Args) (env : Env) (cfg : Config) :
    ∀ (m i0 : Nat) (st : LogsState) (k : Nat),
      i0 ≤ k → k < i0 + m → iter_ok (env.iterEnv k) = false →
      (driver_loop args env cfg m i0 st).2 = false := by
  intro m
  induction m with
  | zero => intro i0 st k h1 h2 _; exact absurd h2 (by omega)
  | succ m ih =>
    intro i0 st k h1 h2 hfail
    by_cases hok : (run_step args env cfg i0 st).ok = true
    · have hk : k ≠ i0 := by
        rintro rfl
        rw [run_step_ok_eq] at hok
        rw [hok] at hfail
        cases hfail
      rw [driver_loop, if_pos hok]
      exact ih (i0 + 1) _ k (by omega) (by omega) hfail
    · rw [driver_loop, if_neg hok]

theorem driver_loop_reaches (args : Args) (env : Env) (cfg : Config) :
    ∀ (m i0 : Nat) (st : LogsState) (j : Nat),
      i0 ≤ j → j < i0 + m →
      (∀ k, i0 ≤ k → k < j → iter_ok (env.iterEnv k) = true) →
      Event.promptSelected j (select_prompt cfg args.prompts env.draws j)
        ∈ (driver_loop args env cfg m i0 st).1 ∧
      Event.runStarted j (select_prompt cfg args.prompts env.draws j)
        ∈ (driver_loop args env cfg m i0 st).1 := by
  intro m
  induction m with
  | zero => intro i0 st j h1 h2 _; exact absurd h2 (by omega)
  | succ m ih =>
    intro i0 st j h1 h2 hprev
    by_cases hj : j = i0
    · subst hj
      by_cases hok : (run_step args env cfg j st).ok = true
      · rw [driver_loop, if_pos hok]
        exact ⟨List.mem_cons_self _ _, List.mem_cons_of_mem _ (List.mem_cons_self _ _)⟩
      · rw [driver_loop, if_neg hok]
        exact ⟨List.mem_cons_self _ _, List.mem_cons_of_mem _ (List.mem_cons_self _ _)⟩
    · have hok : (run_step args env cfg i0 st).ok = true := by
        rw [run_step_ok_eq]
        exact hprev i0 (le_refl _) (by omega)
      rw [driver_loop, if_pos hok]
      have hrec := ih (i0 + 1) (run_step args env cfg i0 st).logs j (by omega) (by omega)
        (fun k hk1 hk2 => hprev k (by omega) hk2)
      exact ⟨List.mem_cons_of_mem _ (List.mem_cons_of_mem _ hrec.1),
             List.mem_cons_of_mem _ (List.mem_cons_of_mem _ hrec.2)⟩

/-- C1: for a run whose configuration succeeds: if every iteration in
`1..N` succeeds the driver exits 0; if iteration `i` is the first failing
iteration (spawn exception, non-zero exit, or sentinel file — `iter_ok`),
the driver exits 1 and no prompt selection or external run event exists for
any iteration after `i`. -/
theorem C1_stop_on_first_failure (script_dir : String) (args : Args) (env : Env) (cfg : Config)
    (hcfg : main_config script_dir args env = Except.ok cfg) :
    ((∀ k, 1 ≤ k → k ≤ args.iterations.toNat → iter_ok (env.iterEnv k) = true) →
      (main_run script_dir args env).exitCode = 0) ∧
    (∀ i, 1 ≤ i → i ≤ args.iterations.toNat → iter_ok (env.iterEnv i) = false →
      (∀ k, 1 ≤ k → k < i → iter_ok (env.iterEnv k) = true) →
      (main_run script_dir args env).exitCode = 1 ∧
      ∀ j p, i < j →
        Event.promptSelected j p ∉ (main_run script_dir args env).trace ∧
        Event.runStarted j p ∉ (main_run script_dir args env).trace) := by
  constructor
  · intro hall
    have hloop := driver_loop_all_ok args env cfg args.iterations.toNat 1 env.logs0
      (fun k h1 h2 => hall k h1 (by omega))
    simp [main_run, hcfg, hloop]
  · intro i hi1 hi2 hfail hmin
    have hloop := driver_loop_fails args env cfg args.iterations.toNat 1 env.logs0 i
      hi1 (by omega) hfail
    have hmain : main_run script_dir args env
        = ⟨1, (driver_loop args env cfg args.iterations.toNat 1 env.logs0).1, none⟩ := by
      simp [main_run, hcfg, hloop]
    refine ⟨by rw [hmain], ?_⟩
    intro j p hij
    constructor
    · intro hmem
      rw [hmain] at hmem
      have := driver_loop_events args env cfg args.iterations.toNat 1 env.logs0
        (Event.promptSelected j p) j hmem rfl
      have hik := this.2 i hi1 (by omega)
      rw [hik] at hfail
      cases hfail
    · intro hmem
      rw [hmain] at hmem
      have := driver_loop_events args env cfg args.iterations.toNat 1 env.logs0
        (Event.runStarted j p) j hmem rfl
      have hik := this.2 i hi1 (by omega)
      rw [hik] at hfail
      cases hfail

theorem C1_stop_on_first_failure_witness :
    (main_run "/s" (Args.mk 2 [] false false false false none none) env_fail).exitCode = 1 := by
  have h := C1_stop_on_first_failure "/s" (Args.mk 2 [] false false false false none none)
    env_fail ⟨builtin_defaults ("/s" ++ "/prompts"), none, false⟩ rfl
  exact (h.2 1 (by decide) (by decide) (by decide)
    (fun k h1 h2 => absurd (Nat.lt_of_lt_of_le h2 h1) (by omega))).1

/-- C10: when the requested iteration count is zero or negative (the CLI's
`type=int` accepts negatives) and configuration succeeds, the loop over
`range(1, n + 1)` is empty: the driver selects no prompt, starts no run,
prints the overall success message and exits 0. -/
theorem C10_nonpositive_iterations (script_dir : String) (args : Args) (env : Env) (cfg : Config)
    (hcfg : main_config script_dir args env = Except.ok cfg)
    (hn : args.iterations ≤ 0) :
    (main_run script_dir args env).exitCode = 0 ∧
    Event.overallSuccess ∈ (main_run script_dir args env).trace ∧
    ∀ j p, Event.promptSelected j p ∉ (main_run script_dir args env).trace ∧
           Event.runStarted j p ∉ (main_run script_dir args env).trace := by
  have h0 : args.iterations.toNat = 0 := Int.toNat_of_nonpos hn
  simp [main_run, hcfg, h0, driver_loop]

theorem C10_nonpositive_iterations_witness :
    (main_run "/s" (Args.mk (-3) [] false false false false none none) env0).exitCode = 0 ∧
    Event.overallSuccess ∈ (main_run "/s" (Args.mk (-3) [] false false false false none none) env0).trace := by
  have h := C10_nonpositive_iterations "/s" (Args.mk (-3) [] false false false false none none)
    env0 ⟨builtin_defaults ("/s" ++ "/prompts"), none, false⟩ rfl (by decide)
  exact ⟨h.1, h.2.1⟩

/-- C6 counterexample: a configuration error (here `--only` combined with a
positional prompt file) aborts before any iteration, but through argparse's
`parser.error`, whose exit status is 2 — not 1 as the claim states. -/
theorem C6_exit_code_counterexample :
    (main_run "/s" (Args.mk 3 ["p.md"] false false false false (some "x") none) env0).configError
      = some ConfigError.onlyWithPrompts ∧
    (main_run "/s" (Args.mk 3 ["p.md"] false false false false (some "x") none) env0).exitCode = 2 ∧
    ¬ (main_run "/s" (Args.mk 3 ["p.md"] false false false false (some "x") none) env0).exitCode = 1 := by
  refine ⟨rfl, rfl, ?_⟩
  intro h
  rw [show (main_run "/s" (Args.mk 3 ["p.md"] false false false false (some "x") none) env0).exitCode = 2 from rfl] at h
  cases h

/-- C6 amended: whenever a configuration error is detected (`--only` or
`--prompt-table` with positional prompts, a missing `--only` file, a missing
table file, or a table loading with zero valid entries), the driver reports
the error and exits with status 2 (argparse `parser.error`), before any
prompt selection or child process: the event trace is empty. -/
theorem C6_config_error_aborts (script_dir : String) (args : Args) (env : Env) (e : ConfigError)
    (hcfg : main_config script_dir args env = Except.error e) :
    (main_run script_dir args env).exitCode = 2 ∧
    (main_run script_dir args env).trace = [] ∧
    (main_run script_dir args env).configError = some e := by
  simp [main_run, hcfg]

theorem C6_config_error_aborts_witness :
    (main_run "/s" (Args.mk 3 ["p.md"] false false false false none (some "t.txt")) env0).exitCode = 2 ∧
    (main_run "/s" (Args.mk 3 ["p.md"] false false false false none (some "t.txt")) env0).trace = [] ∧
    (main_run "/s" (Args.mk 3 ["p.md"] false false false false none (some "t.txt")) env0).configError
      = some ConfigError.tableWithPrompts :=
  C6_config_error_aborts "/s" (Args.mk 3 ["p.md"] false false false false none (some "t.txt"))
    env0 ConfigError.tableWithPrompts rfl

theorem optTruthy_true_ne_none {o : Option String} (h : optTruthy o = true) : o ≠ none := by
  cases o with
  | none => simp [optTruthy] at h
  | some s => simp

theorem mode_exclusive_of_table (args : Args) (hexcl : mode_count args ≤ 1)
    (h : args.prompt_table ≠ none) :
    args.optimize = false ∧ args.general = false ∧ args.tasks = false ∧ args.only = none := by
  cases hOpt : args.optimize <;> cases hGen : args.general <;> cases hTask : args.tasks <;>
    cases hOnly : args.only <;> simp_all [mode_count]

theorem select_prompt_eq_spec (script_dir : String) (args : Args) (env : Env) (cfg : Config)
    (hexcl : mode_count args ≤ 1)
    (hcfg : main_config script_dir args env = Except.ok cfg)
    (i : Nat) (h1 : 1 ≤ i) :
    select_prompt cfg args.prompts env.draws i = spec_select_prompt script_dir args env i := by
  simp only [main_config] at hcfg
  by_cases hT : optTruthy args.prompt_table = true
  · obtain ⟨hOpt, hGen, hTask, hOnly⟩ :=
      mode_exclusive_of_table args hexcl (optTruthy_true_ne_none hT)
    have hOnlyF : optTruthy args.only = false := by rw [hOnly]; rfl
    have hc1 : ¬ (optTruthy args.only = true ∧ args.prompts ≠ []) := by
      rintro ⟨ha, -⟩
      rw [hOnlyF] at ha
      cases ha
    rw [if_neg hc1] at hcfg
    have hprompts : args.prompts = [] := by
      by_contra hp
      rw [if_pos ⟨hT, hp⟩] at hcfg
      cases hcfg
    have hc2 : ¬ (optTruthy args.prompt_table = true ∧ args.prompts ≠ []) := by
      rintro ⟨-, hp⟩
      exact hp hprompts
    rw [if_neg hc2, if_pos hT] at hcfg
    by_cases hfs : env.fsExists (args.prompt_table.getD "") = false
    · rw [if_pos hfs] at hcfg
      cases hcfg
    · rw [if_neg hfs] at hcfg
      cases hload : load_prompt_table env.fsExists (path_parent (args.prompt_table.getD ""))
          env.tableLines with
      | error msg => rw [hload] at hcfg; cases hcfg
      | ok entries =>
        rw [hload] at hcfg
        have hcfg' : cfg = ⟨entries, none, false⟩ := (Except.ok.inj hcfg).symm
        subst hcfg'
        have hi0 : ¬ (i ≤ 0) := by omega
        simp [select_prompt, spec_select_prompt, spec_weighted_list, hOnlyF, hprompts,
          hOpt, hGen, hTask, hT, hload, hi0]
  · have hT' : optTruthy args.prompt_table = false := by
      cases h : optTruthy args.prompt_table
      · rfl
      · exact absurd h hT
    by_cases hO : optTruthy args.only = true
    · have hprompts : args.prompts = [] := by
        by_contra hp
        rw [if_pos ⟨hO, hp⟩] at hcfg
        cases hcfg
      have hc1 : ¬ (optTruthy args.only = true ∧ args.prompts ≠ []) := by
        rintro ⟨-, hp⟩
        exact hp hprompts
      have hc2 : ¬ (optTruthy args.prompt_table = true ∧ args.prompts ≠ []) := by
        rintro ⟨ha, -⟩
        rw [hT'] at ha
        cases ha
      rw [if_neg hc1, if_neg hc2, if_neg hT, if_pos hO] at hcfg
      by_cases hfs : env.fsExists (args.only.getD "") = false
      · rw [if_pos hfs] at hcfg
        cases hcfg
      · rw [if_neg hfs] at hcfg
        have hcfg' : cfg = ⟨builtin_defaults (script_dir ++ "/prompts"),
            some (args.only.getD ""), true⟩ := (Except.ok.inj hcfg).symm
        subst hcfg'
        simp [select_prompt, spec_select_prompt, hO]
    · have hO' : optTruthy args.only = false := by
        cases h : optTruthy args.only
        · rfl
        · exact absurd h hO
      have hc1 : ¬ (optTruthy args.only = true ∧ args.prompts ≠ []) := by
        rintro ⟨ha, -⟩
        rw [hO'] at ha
        cases ha
      have hc2 : ¬ (optTruthy args.prompt_table = true ∧ args.prompts ≠ []) := by
        rintro ⟨ha, -⟩
        rw [hT'] at ha
        cases ha
      rw [if_neg hc1, if_neg hc2, if_neg hT, if_neg hO] at hcfg
      by_cases hOpt : args.optimize = true
      · rw [if_pos hOpt] at hcfg
        have hcfg' : cfg = ⟨builtin_defaults (script_dir ++ "/prompts"),
            some ((script_dir ++ "/prompts") ++ "/optimization_task.md"), false⟩ :=
          (Except.ok.inj hcfg).symm
        subst hcfg'
        by_cases hi : i ≤ args.prompts.length
        · simp [select_prompt, spec_select_prompt, hO', hi]
        · simp [select_prompt, spec_select_prompt, hO', hi, hOpt]
      · rw [if_neg hOpt] at hcfg
        by_cases hGen : args.general = true
        · rw [if_pos hGen] at hcfg
          have hcfg' : cfg = ⟨builtin_defaults (script_dir ++ "/prompts"),
              some ((script_dir ++ "/prompts") ++ "/generic_forward_progress_task.md"), false⟩ :=
            (Except.ok.inj hcfg).symm
          subst hcfg'
          by_cases hi : i ≤ args.prompts.length
          · simp [select_prompt, spec_select_prompt, hO', hi]
          · simp [select_prompt, spec_select_prompt, hO', hi, hOpt, hGen]
        · rw [if_neg hGen] at hcfg
          by_cases hTask : args.tasks = true
          · rw [if_pos hTask] at hcfg
            have hcfg' : cfg = ⟨builtin_defaults (script_dir ++ "/prompts"),
                some ((script_dir ++ "/prompts") ++ "/task_gardening.md"), false⟩ :=
              (Except.ok.inj hcfg).symm
            subst hcfg'
            by_cases hi : i ≤ args.prompts.length
            · simp [select_prompt, spec_select_prompt, hO', hi]
            · simp [select_prompt, spec_select_prompt, hO', hi, hOpt, hGen, hTask]
          · rw [if_neg hTask] at hcfg
            have hcfg' : cfg = ⟨builtin_defaults (script_dir ++ "/prompts"), none, false⟩ :=
              (Except.ok.inj hcfg).symm
            subst hcfg'
            by_cases hi : i ≤ args.prompts.length
            · simp [select_prompt, spec_select_prompt, hO', hi]
            · simp [select_prompt, spec_select_prompt, spec_weighted_list, hO', hi,
                hOpt, hGen, hTask, hT']

/-- C2: for every iteration `i` the loop reaches, the selected prompt (as
recorded in the trace) is the one the spec's SELECT_PROMPT clause
prescribes: the `--only` file if only mode is active; else the i-th
positional custom file when `i` is within their count; else the fixed
single-category file when such a mode is active; else a weighted draw over
the table-loaded or built-in weighted list. -/
theorem C2_prompt_selection_order (script_dir : String) (args : Args) (env : Env) (cfg : Config)
    (hexcl : mode_count args ≤ 1)
    (hcfg : main_config script_dir args env = Except.ok cfg)
    (i : Nat) (h1 : 1 ≤ i) (h2 : i ≤ args.iterations.toNat)
    (hprev : ∀ k, 1 ≤ k → k < i → iter_ok (env.iterEnv k) = true) :
    Event.promptSelected i (spec_select_prompt script_dir args env i)
      ∈ (main_run script_dir args env).trace := by
  have hsel := select_prompt_eq_spec script_dir args env cfg hexcl hcfg i h1
  have hreach := (driver_loop_reaches args env cfg args.iterations.toNat 1 env.logs0 i h1
    (by omega) hprev).1
  rw [hsel] at hreach
  rcases hr : (driver_loop args env cfg args.iterations.toNat 1 env.logs0).2 with _ | _
  · have hmain : (main_run script_dir args env).trace
        = (driver_loop args env cfg args.iterations.toNat 1 env.logs0).1 := by
      simp [main_run, hcfg, hr]
    rw [hmain]
    exact hreach
  · have hmain : (main_run script_dir args env).trace
        = (driver_loop args env cfg args.iterations.toNat 1 env.logs0).1
          ++ [Event.overallSuccess] := by
      simp [main_run, hcfg, hr]
    rw [hmain]
    exact List.mem_append_left _ hreach

theorem C2_prompt_selection_order_witness :
    Event.promptSelected 1
      (spec_select_prompt "/s" (Args.mk 1 ["custom.md"] false false false false none none) env0 1)
      ∈ (main_run "/s" (Args.mk 1 ["custom.md"] false false false false none none) env0).trace :=
  C2_prompt_selection_order "/s" (Args.mk 1 ["custom.md"] false false false false none none)
    env0 ⟨builtin_defaults ("/s" ++ "/prompts"), none, false⟩ (by decide) rfl 1
    (by decide) (by decide) (fun k hk1 hk2 => absurd (Nat.lt_of_lt_of_le hk2 hk1) (by omega))
